import Mathlib

/-!
Shallow embedding of the MDict reader of this repository
(src/rdict/src-tauri/src/mdict.rs), together with theorems settling the
claims about it.

Conventions of the embedding:
* Rust byte buffers (`Vec<u8>`, `&[u8]`, file contents) are `List Nat`
  (each element a byte value).
* Rust `String` values are `List Nat` of Unicode scalar values; Rust string
  equality is list equality and Rust string comparison (`<=`, `>=`, which is
  byte-wise lexicographic on UTF-8) is code-point lexicographic order, which
  coincides with UTF-8 byte order.
* Machine integers (`u8` .. `u64`, `usize` on a 64-bit target) are `Nat`;
  all arithmetic the source performs on them stays far below 2^64 overflow
  except where noted, and subtractions in the source are guarded the same
  way they are guarded here.
* The `f32` header version is modelled as `ℚ`; the only use of the version
  is the comparison `version >= 2.0`.
* Fallible Rust code (`Result`, `?`, early `return Err`) is `Except RErr`;
  a Rust panic (out-of-bounds slice index) is the distinguished error
  `RErr.panicked` so it can never be confused with an `anyhow` error value.
* The zlib decoder of the external `flate2` crate is not code of this
  repository; it is passed in as a function parameter `zlib`. All concrete
  inputs used below use compression tag 0, so the parameter is never
  invoked on them.
* A `File` that has been opened successfully is its byte contents; a seek
  followed by `read_exact` is `readExact` at an absolute position.
  `File::open` of the dictionary's own path is assumed to succeed and to
  yield the same contents every time (the stored `file` field).
-/

/-- Rust byte buffers. -/
abbrev Bytes := List Nat

/-- Rust strings, as lists of Unicode scalar values. -/
abbrev RStr := List Nat

/-- Convenience for writing `RStr` literals. -/
def str (s : String) : RStr := s.data.map Char.toNat

/-- Big-endian value of a byte list (`read_u16/u32/u64::<BigEndian>`). -/
def beVal (bs : Bytes) : Nat := bs.foldl (fun a b => a * 256 + b) 0

/-- Big-endian 8-byte encoding of a value below 2^64 (used to build the
concrete test files below, mirroring how the on-disk format stores u64s). -/
def u64be (n : Nat) : Bytes :=
  [n / 2 ^ 56 % 256, n / 2 ^ 48 % 256, n / 2 ^ 40 % 256, n / 2 ^ 32 % 256,
   n / 2 ^ 24 % 256, n / 2 ^ 16 % 256, n / 2 ^ 8 % 256, n % 256]

/-- Big-endian 4-byte encoding of a value below 2^32 (the on-disk header
length field). -/
def u32be (n : Nat) : Bytes :=
  [n / 2 ^ 24 % 256, n / 2 ^ 16 % 256, n / 2 ^ 8 % 256, n % 256]

/-- Errors of the embedded reader.  The source uses `anyhow::Error` (plus
`std::io::Error` converted by `?`); the distinct error values it can
produce are projected onto these constructors.  `panicked` marks a Rust
panic (an out-of-bounds index), which is not a `Result` error at all and is
therefore kept as a separate constructor that no `match` in the embedding
ever converts back into a success. -/
inductive RErr : Type
  | ioErr : RErr
  | panicked : RErr
  | unknownCompression : Nat → RErr
  | zlibFailed : RErr
  | recordNotFound : Nat → RErr
  deriving DecidableEq, Repr

instance {e a : Type} [DecidableEq e] [DecidableEq a] : DecidableEq (Except e a)
  | .ok x, .ok y =>
    if h : x = y then .isTrue (by rw [h]) else .isFalse (fun hc => h (Except.ok.inj hc))
  | .ok _, .error _ => .isFalse (fun hc => Except.noConfusion hc)
  | .error _, .ok _ => .isFalse (fun hc => Except.noConfusion hc)
  | .error x, .error y =>
    if h : x = y then .isTrue (by rw [h]) else .isFalse (fun hc => h (Except.error.inj hc))

/-- Stand-in for the external zlib decoder in concrete computations; the
inputs below all carry compression tag 0, so it is never reached. -/
def noZlib : Bytes → Except RErr Bytes := fun _ => .error .zlibFailed

/-- A byte source with a position: models both a seekable `File` (whose
contents are `data`) and `std::io::Cursor<&[u8]>`. -/
structure Cursor where
  data : Bytes
  pos : Nat
  deriving DecidableEq, Repr

/-- `read_exact` of `n` bytes at the current position: succeeds iff `n`
bytes are available (in particular a zero-length read always succeeds,
as in Rust, even past the end). -/
def readExact (c : Cursor) (n : Nat) : Except RErr (Bytes × Cursor) :=
  if n ≤ c.data.length - c.pos then
    .ok ((c.data.drop c.pos).take n, ⟨c.data, c.pos + n⟩)
  else .error .ioErr

/-- `read_u8`. -/
def readU8 (c : Cursor) : Except RErr (Nat × Cursor) :=
  match readExact c 1 with
  | .error e => .error e
  | .ok (bs, c1) => .ok (beVal bs, c1)

/-- `read_u16::<BigEndian>`. -/
def readU16 (c : Cursor) : Except RErr (Nat × Cursor) :=
  match readExact c 2 with
  | .error e => .error e
  | .ok (bs, c1) => .ok (beVal bs, c1)

/-- `read_u32::<BigEndian>`. -/
def readU32 (c : Cursor) : Except RErr (Nat × Cursor) :=
  match readExact c 4 with
  | .error e => .error e
  | .ok (bs, c1) => .ok (beVal bs, c1)

/-- `read_u64::<BigEndian>`. -/
def readU64 (c : Cursor) : Except RErr (Nat × Cursor) :=
  match readExact c 8 with
  | .error e => .error e
  | .ok (bs, c1) => .ok (beVal bs, c1)

/-- `seek(SeekFrom::Current(n))` for `n ≥ 0` (always succeeds; reads past
the end fail later, exactly as for `std::io::Cursor`). -/
def cursorSkip (c : Cursor) (n : Nat) : Cursor := ⟨c.data, c.pos + n⟩

/-- Continuation-byte test of the UTF-8 decoder. -/
def isUtf8Cont (b : Nat) : Bool := 0x80 ≤ b ∧ b ≤ 0xBF

/-- First-continuation-byte test for a three-byte lead (excludes overlong
encodings for `0xE0` and surrogates for `0xED`). -/
def isUtf8Cont3 (lead b : Nat) : Bool :=
  if lead = 0xE0 then 0xA0 ≤ b ∧ b ≤ 0xBF
  else if lead = 0xED then 0x80 ≤ b ∧ b ≤ 0x9F
  else isUtf8Cont b

/-- First-continuation-byte test for a four-byte lead (excludes overlong
encodings for `0xF0` and values above U+10FFFF for `0xF4`). -/
def isUtf8Cont4 (lead b : Nat) : Bool :=
  if lead = 0xF0 then 0x90 ≤ b ∧ b ≤ 0xBF
  else if lead = 0xF4 then 0x80 ≤ b ∧ b ≤ 0x8F
  else isUtf8Cont b

/-- `String::from_utf8_lossy`: UTF-8 decoding with the WHATWG
maximal-subpart policy, every error replaced by U+FFFD (65533).  On ASCII
input this is the identity on code values. -/
def utf8LossyDecode : Bytes → RStr
  | [] => []
  | b :: rest =>
    if b < 0x80 then b :: utf8LossyDecode rest
    else if 0xC2 ≤ b ∧ b ≤ 0xDF then
      match rest with
      | [] => [0xFFFD]
      | b1 :: r1 =>
        if isUtf8Cont b1 then
          ((b - 0xC0) * 64 + (b1 - 0x80)) :: utf8LossyDecode r1
        else 0xFFFD :: utf8LossyDecode (b1 :: r1)
    else if 0xE0 ≤ b ∧ b ≤ 0xEF then
      match rest with
      | [] => [0xFFFD]
      | b1 :: r1 =>
        if isUtf8Cont3 b b1 then
          match r1 with
          | [] => [0xFFFD]
          | b2 :: r2 =>
            if isUtf8Cont b2 then
              (((b - 0xE0) * 64 + (b1 - 0x80)) * 64 + (b2 - 0x80)) :: utf8LossyDecode r2
            else 0xFFFD :: utf8LossyDecode (b2 :: r2)
        else 0xFFFD :: utf8LossyDecode (b1 :: r1)
    else if 0xF0 ≤ b ∧ b ≤ 0xF4 then
      match rest with
      | [] => [0xFFFD]
      | b1 :: r1 =>
        if isUtf8Cont4 b b1 then
          match r1 with
          | [] => [0xFFFD]
          | b2 :: r2 =>
            if isUtf8Cont b2 then
              match r2 with
              | [] => [0xFFFD]
              | b3 :: r3 =>
                if isUtf8Cont b3 then
                  ((((b - 0xF0) * 64 + (b1 - 0x80)) * 64 + (b2 - 0x80)) * 64 + (b3 - 0x80))
                    :: utf8LossyDecode r3
                else 0xFFFD :: utf8LossyDecode (b3 :: r3)
            else 0xFFFD :: utf8LossyDecode (b2 :: r2)
        else 0xFFFD :: utf8LossyDecode (b1 :: r1)
    else 0xFFFD :: utf8LossyDecode rest

/-- Modelled from the spec: "Read `L` bytes as UTF-16LE text … Decode to a
string."  UTF-16LE decoding: consecutive byte pairs are little-endian code
units; a high surrogate must be followed by a low surrogate (combined into
a supplementary code point); an unpaired surrogate or an odd trailing byte
is a decode failure. -/
def utf16leDecode : Bytes → Option RStr
  | [] => some []
  | [_] => none
  | lo :: hi :: rest =>
    let u := lo + 256 * hi
    if u < 0xD800 ∨ 0xE000 ≤ u then (utf16leDecode rest).map (u :: ·)
    else if u ≤ 0xDBFF then
      match rest with
      | lo2 :: hi2 :: rest2 =>
        let u2 := lo2 + 256 * hi2
        if 0xDC00 ≤ u2 ∧ u2 ≤ 0xDFFF then
          (utf16leDecode rest2).map ((0x10000 + (u - 0xD800) * 1024 + (u2 - 0xDC00)) :: ·)
        else none
      | _ => none
    else none

/-- The Unicode White_Space property, as used by Rust `str::trim`. -/
def isRustWhitespace (c : Nat) : Bool :=
  c = 0x09 ∨ c = 0x0A ∨ c = 0x0B ∨ c = 0x0C ∨ c = 0x0D ∨ c = 0x20 ∨
  c = 0x85 ∨ c = 0xA0 ∨ c = 0x1680 ∨ (0x2000 ≤ c ∧ c ≤ 0x200A) ∨
  c = 0x2028 ∨ c = 0x2029 ∨ c = 0x202F ∨ c = 0x205F ∨ c = 0x3000

/-- Rust `str::trim`. -/
def rustTrim (s : RStr) : RStr :=
  ((s.dropWhile isRustWhitespace).reverse.dropWhile isRustWhitespace).reverse

/-- Rust `str::to_lowercase`, restricted to the ASCII range: `A`–`Z` map to
`a`–`z`, every other code point is kept unchanged.  (The full Unicode
lowercase mapping the Rust standard library applies outside ASCII is not
modelled; no key or query in this development contains such a code
point.) -/
def rustToLowerChar (c : Nat) : Nat := if 65 ≤ c ∧ c ≤ 90 then c + 32 else c

/-- Rust `String::to_lowercase` (see `rustToLowerChar`). -/
def rustToLower (s : RStr) : RStr := s.map rustToLowerChar

/-- Rust `String` order (`<=` on strings is byte-wise lexicographic on
UTF-8, which equals code-point lexicographic order): `lexLe a b` is
`a <= b`. -/
def lexLe : RStr → RStr → Bool
  | [], _ => true
  | _ :: _, [] => false
  | a :: as1, b :: bs1 => if a < b then true else if b < a then false else lexLe as1 bs1

/-- Rust `starts_with('/')`. -/
def startsWithSlash : RStr → Bool
  | [] => false
  | c :: _ => c == 47

/-- The parsed header descriptor (struct `DictionaryHeader`).  The
`stylesheet` field of the source is always set to an empty map and never
read, so it is omitted here. -/
structure DictionaryHeader where
  version : ℚ
  engineVersion : RStr
  format : RStr
  keyCaseSensitive : Bool
  stripKey : Bool
  encryption : RStr
  encoding : RStr
  creationDate : RStr
  compact : Bool
  left2right : Bool
  dataOffset : Nat
  title : RStr
  description : RStr
  deriving DecidableEq, Repr

/-- Word character of the regex class `\w` (the attribute names this is
applied to are ASCII; Unicode word characters outside ASCII are not
modelled). -/
def isWordChar (c : Nat) : Bool :=
  (65 ≤ c ∧ c ≤ 90) ∨ (97 ≤ c ∧ c ≤ 122) ∨ (48 ≤ c ∧ c ≤ 57) ∨ c = 95

/-- One anchored match of the header-attribute regex
`(\w+)="([^"]+)"` at the start of `s`, returning the two capture groups
and the remainder.  Because `\w` contains neither `=` (61) nor `"` (34),
the greedy `\w+` and `[^"]+` sub-matches cannot backtrack into a
successful match, so this scanner is exactly the regex's match at this
position. -/
def matchAttrAt (s : RStr) : Option (RStr × RStr × RStr) :=
  let name := s.takeWhile isWordChar
  if name = [] then none
  else
    match s.drop name.length with
    | 61 :: 34 :: rest =>
      let v := rest.takeWhile (fun c => ¬ c = 34)
      if v = [] then none
      else
        match rest.drop v.length with
        | 34 :: rest2 => some (name, v, rest2)
        | _ => none
    | _ => none

/-- Left-to-right non-overlapping scan of `captures_iter`, fuelled by the
string length (each step consumes at least one character, so the fuel
never runs out on the initial call of `scanAttrs`). -/
def scanAttrsAux : Nat → RStr → List (RStr × RStr)
  | 0, _ => []
  | _, [] => []
  | fuel + 1, c :: rest =>
    match matchAttrAt (c :: rest) with
    | some (n, v, rest2) => (n, v) :: scanAttrsAux fuel rest2
    | none => scanAttrsAux fuel rest

/-- All `(\w+)="([^"]+)"` matches of the header string, in order
(lines 117-122 of mdict.rs). -/
def scanAttrs (s : RStr) : List (RStr × RStr) := scanAttrsAux s.length s

/-- `HashMap` built by repeated `insert` then queried with `get`: the last
binding of a key wins. -/
def attrsGet (l : List (RStr × RStr)) (k : RStr) : Option RStr :=
  (l.reverse.find? (fun p => p.1 == k)).map (fun p => p.2)

/-- Digit test for the version parser. -/
def isDigitByte (c : Nat) : Bool := 48 ≤ c ∧ c ≤ 57

/-- Value of a digit string. -/
def digitsVal (s : RStr) : Nat := s.foldl (fun a c => a * 10 + (c - 48)) 0

/-- `parse::<f32>()` restricted to the plain decimal forms that occur as
`GeneratedByEngineVersion` values ("1.2", "2.0", "3", "2." …).  The result
is the exact rational value; versions this small are exactly representable
comparisons against 2.0, and the only use of the parsed number is the
comparison `version >= 2.0`.  Signs, exponents and other accepted `f32`
forms are not modelled. -/
def parseVersion (s : RStr) : Option ℚ :=
  match List.splitOn 46 s with
  | [ip] =>
    if ip ≠ [] ∧ ip.all isDigitByte then some (digitsVal ip) else none
  | [ip, fp] =>
    if (ip ≠ [] ∨ fp ≠ []) ∧ ip.all isDigitByte ∧ fp.all isDigitByte then
      some (mkRat (digitsVal ip * 10 ^ fp.length + digitsVal fp) (10 ^ fp.length))
    else none
  | _ => none

/-- `MdxDictionary::parse_header_attrs` (lines 112-144): extract the
attribute map with the regex, then project the typed fields.  The source
returns `Result` only because `Regex::new` of the fixed pattern could in
principle fail; it never does, so the embedding is total. -/
def parseHeaderAttrs (headerStr : RStr) : DictionaryHeader :=
  let attrs := scanAttrs headerStr
  { version := ((attrsGet attrs (str ("GeneratedByEngineVersion"))).bind parseVersion).getD 2
    engineVersion := (attrsGet attrs (str ("GeneratedByEngineVersion"))).getD []
    format := (attrsGet attrs (str ("Format"))).getD (str ("Html"))
    keyCaseSensitive := attrsGet attrs (str ("KeyCaseSensitive")) == some (str ("Yes"))
    stripKey := attrsGet attrs (str ("StripKey")) == some (str ("Yes"))
    encryption := (attrsGet attrs (str ("Encryption"))).getD []
    encoding := (attrsGet attrs (str ("Encoding"))).getD (str ("UTF-8"))
    creationDate := (attrsGet attrs (str ("CreationDate"))).getD []
    compact := attrsGet attrs (str ("Compact")) == some (str ("Yes"))
    left2right := attrsGet attrs (str ("Left2Right")) == some (str ("Yes"))
    dataOffset := 0
    title := (attrsGet attrs (str ("Title"))).getD (str ("Dictionary"))
    description := (attrsGet attrs (str ("Description"))).getD [] }

/-- `MdxDictionary::read_header` (lines 89-110): 4-byte big-endian length,
`header_len` bytes decoded with `String::from_utf8_lossy`, attributes
parsed, `data_offset = header_len + 4 + 4`, file seeked to
`data_offset`. -/
def readHeader (file : Bytes) : Except RErr (DictionaryHeader × Cursor) :=
  match readU32 ⟨file, 0⟩ with
  | .error e => .error e
  | .ok (headerLen, c1) =>
    match readExact c1 headerLen with
    | .error e => .error e
    | .ok (headerData, _) =>
      let headerStr := utf8LossyDecode headerData
      let hdr := parseHeaderAttrs headerStr
      let dataOffset := headerLen + 4 + 4
      .ok ({ hdr with dataOffset := dataOffset }, ⟨file, dataOffset⟩)

/-- The `match compression_type` of both decompress functions
(lines 206-223 and 640-650): tag 0 passes the bytes through, tag 1 (LZO)
returns `Ok` with empty output, tag 2 calls the external zlib decoder, any
other tag is the `anyhow!("Unknown compression type: …")` error. -/
def decompressTag (zlib : Bytes → Except RErr Bytes) (tag : Nat) (d : Bytes) :
    Except RErr Bytes :=
  match tag with
  | 0 => .ok d
  | 1 => .ok []
  | 2 => zlib d
  | t => .error (.unknownCompression t)

/-- The `data_to_decompress` selection of `MdxDictionary::decompress`
(lines 198-204) followed by the tag match: with a positive header size the
payload is everything after the header when longer than it, and a too-short
input returns `Ok(vec![])` before the tag is even consulted. -/
def mdxSelectAndSwitch (zlib : Bytes → Except RErr Bytes) (tag : Nat) (data : Bytes)
    (hs : Nat) : Except RErr Bytes :=
  if 0 < hs ∧ hs < data.length then decompressTag zlib tag (data.drop hs)
  else if 0 < hs then .ok []
  else decompressTag zlib tag data

/-- `MdxDictionary::decompress` (lines 188-224).  The compression tag is
`data[header_size - 1]` whenever the header size is positive and the data
nonempty — an index that panics when the data is shorter than the header —
and `data[0]` otherwise; empty data returns `Ok(vec![])`.  No checksum of
any kind is computed or compared. -/
def MdxDictionary.decompress (zlib : Bytes → Except RErr Bytes) (data : Bytes)
    (headerSize : Option Nat) : Except RErr Bytes :=
  let hs := headerSize.getD 0
  if 0 < hs ∧ data ≠ [] then
    if hs - 1 < data.length then
      mdxSelectAndSwitch zlib (data.getD (hs - 1) 0) data hs
    else .error .panicked
  else if data ≠ [] then
    mdxSelectAndSwitch zlib (data.getD 0 0) data hs
  else .ok []

/-- `MddResource::decompress` (lines 624-651).  Differs from the Mdx
variant in its guards: the tag is `data[header_size - 1]` only when the
data is strictly longer than the header (no panic is possible), and
otherwise `data[0]` with the whole input as payload.  No checksum of any
kind is computed or compared. -/
def MddResource.decompress (zlib : Bytes → Except RErr Bytes) (data : Bytes)
    (headerSize : Option Nat) : Except RErr Bytes :=
  let hs := headerSize.getD 0
  if 0 < hs ∧ hs < data.length then
    decompressTag zlib (data.getD (hs - 1) 0) (data.drop hs)
  else if data ≠ [] then
    decompressTag zlib (data.getD 0 0) data
  else .ok []

/-- Modelled from the spec: the Adler-32 checksum ("The verifier computes
Adler-32 of its output …"): running sums `a` (from 1) and `b` (from 0)
modulo 65521, result `b * 65536 + a`. -/
def adler32 (data : Bytes) : Nat :=
  let p := data.foldl
    (fun (p : Nat × Nat) byte => ((p.1 + byte) % 65521, (p.2 + (p.1 + byte)) % 65521))
    (1, 0)
  p.2 * 65536 + p.1

/-- Key-block descriptor (struct `KeyBlockInfo`). -/
structure KeyBlockInfo where
  compressedSize : Nat
  decompressedSize : Nat
  numEntries : Nat
  firstKey : RStr
  lastKey : RStr
  offset : Nat
  deriving DecidableEq, Repr

/-- Record-block descriptor (struct `RecordBlockInfo`). -/
structure RecordBlockInfo where
  compressedSize : Nat
  decompressedSize : Nat
  offset : Nat
  deriving DecidableEq, Repr

/-- `MdxDictionary::read_key` (lines 263-277): a length prefix (2 bytes
big-endian for version ≥ 2.0, else 1 byte), the key bytes decoded with
`String::from_utf8_lossy`, then 8 bytes skipped with
`seek(SeekFrom::Current(8))`. -/
def readKeyInfoKey (c : Cursor) (version : ℚ) : Except RErr (RStr × Cursor) :=
  match (if (2 : ℚ) ≤ version then readU16 c else readU8 c) with
  | .error e => .error e
  | .ok (len, c1) =>
    match readExact c1 len with
    | .error e => .error e
    | .ok (keyBytes, c2) => .ok (utf8LossyDecode keyBytes, cursorSkip c2 8)

/-- The descriptor loop of `MdxDictionary::parse_key_block_info`
(lines 234-251): per block `compressed_size`, `decompressed_size`,
`num_entries` (u64 each), then first and last key; `offset` is filled with
0 and assigned afterwards. -/
def parseKeyBlockInfoLoop (version : ℚ) : Nat → Cursor → Except RErr (List KeyBlockInfo)
  | 0, _ => .ok []
  | n + 1, c =>
    match readU64 c with
    | .error e => .error e
    | .ok (cs, c1) =>
      match readU64 c1 with
      | .error e => .error e
      | .ok (ds, c2) =>
        match readU64 c2 with
        | .error e => .error e
        | .ok (ne, c3) =>
          match readKeyInfoKey c3 version with
          | .error e => .error e
          | .ok (fk, c4) =>
            match readKeyInfoKey c4 version with
            | .error e => .error e
            | .ok (lk, c5) =>
              match parseKeyBlockInfoLoop version n c5 with
              | .error e => .error e
              | .ok rest =>
                .ok ({ compressedSize := cs, decompressedSize := ds, numEntries := ne,
                       firstKey := fk, lastKey := lk, offset := 0 } :: rest)

/-- The offset pass of `MdxDictionary::parse_key_block_info`
(lines 253-258): each descriptor's `offset` becomes the running sum of the
compressed sizes before it, starting from `start` (the source starts at
0). -/
def assignOffsets : List KeyBlockInfo → Nat → List KeyBlockInfo
  | [], _ => []
  | i :: rest, start =>
    { i with offset := start } :: assignOffsets rest (start + i.compressedSize)

/-- `MdxDictionary::parse_key_block_info` (lines 226-261). -/
def parseKeyBlockInfo (data : Bytes) (numBlocks : Nat) (version : ℚ) :
    Except RErr (List KeyBlockInfo) :=
  match parseKeyBlockInfoLoop version numBlocks ⟨data, 0⟩ with
  | .error e => .error e
  | .ok infos => .ok (assignOffsets infos 0)

/-- The loop of `MdxDictionary::parse_record_block_info` (lines 284-295):
per block `compressed_size` and `decompressed_size` (u64 each); `offset`
is the running sum of the compressed sizes read so far. -/
def parseRecordBlockInfoLoop : Nat → Cursor → Nat → Except RErr (List RecordBlockInfo)
  | 0, _, _ => .ok []
  | n + 1, c, curOffset =>
    match readU64 c with
    | .error e => .error e
    | .ok (cs, c1) =>
      match readU64 c1 with
      | .error e => .error e
      | .ok (ds, c2) =>
        match parseRecordBlockInfoLoop n c2 (curOffset + cs) with
        | .error e => .error e
        | .ok rest =>
          .ok ({ compressedSize := cs, decompressedSize := ds, offset := curOffset } :: rest)

/-- `MdxDictionary::parse_record_block_info` (lines 279-298). -/
def parseRecordBlockInfo (data : Bytes) (numBlocks : Nat) :
    Except RErr (List RecordBlockInfo) :=
  parseRecordBlockInfoLoop numBlocks ⟨data, 0⟩ 0

/-- `MdxDictionary::read_block_infos` (lines 146-186), reading from the
file cursor positioned at `data_offset` by `read_header`: the key-info
header fields (`num_key_blocks`, `num_entries`, for version ≥ 2.0 an extra
discarded u64 plus 5 zero bytes, `key_block_info_size`,
`key_blocks_size`), the key-info payload (put through
`MdxDictionary::decompress` with header size 4 for version ≥ 2.0 and none
otherwise), then the record-info header fields and the uncompressed
record-info payload.  `MddResource::new` calls this same function. -/
def readBlockInfos (zlib : Bytes → Except RErr Bytes) (c : Cursor)
    (version : ℚ) : Except RErr (List KeyBlockInfo × List RecordBlockInfo) :=
  match readU64 c with
  | .error e => .error e
  | .ok (numKeyBlocks, c1) =>
    match readU64 c1 with
    | .error e => .error e
    | .ok (_numEntries, c2) =>
      match (if (2 : ℚ) ≤ version then
               match readU64 c2 with
               | .error e => .error e
               | .ok (_, c2a) =>
                 match readExact c2a 5 with
                 | .error e => .error e
                 | .ok (_zeros, c2b) => .ok c2b
             else .ok c2 : Except RErr Cursor) with
      | .error e => .error e
      | .ok (c3 : Cursor) =>
        match readU64 c3 with
        | .error e => .error e
        | .ok (keyInfoSize, c4) =>
          match readU64 c4 with
          | .error e => .error e
          | .ok (_keyBlocksSize, c5) =>
            match readExact c5 keyInfoSize with
            | .error e => .error e
            | .ok (keyInfoCompressed, c6) =>
              match MdxDictionary.decompress zlib keyInfoCompressed
                      (if (2 : ℚ) ≤ version then some 4 else none) with
              | .error e => .error e
              | .ok keyInfoData =>
                match parseKeyBlockInfo keyInfoData numKeyBlocks version with
                | .error e => .error e
                | .ok keyBlockInfos =>
                  match readU64 c6 with
                  | .error e => .error e
                  | .ok (numRecordBlocks, c7) =>
                    match readU64 c7 with
                    | .error e => .error e
                    | .ok (_ne, c8) =>
                      match readU64 c8 with
                      | .error e => .error e
                      | .ok (recordInfoSize, c9) =>
                        match readU64 c9 with
                        | .error e => .error e
                        | .ok (_recordBlocksSize, c10) =>
                          match readExact c10 recordInfoSize with
                          | .error e => .error e
                          | .ok (recordInfoData, _) =>
                            match parseRecordBlockInfo recordInfoData numRecordBlocks with
                            | .error e => .error e
                            | .ok recordBlockInfos => .ok (keyBlockInfos, recordBlockInfos)

/-- The `lru::LruCache`: a capacity-bounded association list, most recently
used first. -/
structure LruCache (V : Type) where
  entries : List (RStr × V)
  cap : Nat
  deriving DecidableEq, Repr

/-- `LruCache::get`: on a hit the entry is promoted to most-recently-used
and its value returned; a miss leaves the cache unchanged. -/
def lruGet {V : Type} (c : LruCache V) (k : RStr) : Option V × LruCache V :=
  match c.entries.find? (fun p => p.1 == k) with
  | some kv => (some kv.2, ⟨kv :: c.entries.eraseP (fun p => p.1 == k), c.cap⟩)
  | none => (none, c)

/-- `LruCache::put`: an existing key is updated and promoted; a new key is
inserted most-recently-used, evicting the least-recently-used entry when
the cache is full. -/
def lruPut {V : Type} (c : LruCache V) (k : RStr) (v : V) : LruCache V :=
  if (c.entries.find? (fun p => p.1 == k)).isSome then
    ⟨(k, v) :: c.entries.eraseP (fun p => p.1 == k), c.cap⟩
  else
    let es := (k, v) :: c.entries
    ⟨if c.cap < es.length then es.dropLast else es, c.cap⟩

/-- `CACHE_SIZE` (line 13). -/
def CACHE_SIZE : Nat := 100

/-- `pub struct DictionaryEntry` (lines 15-19). -/
structure DictionaryEntry where
  word : RStr
  definition : RStr
  deriving DecidableEq, Repr

/-- `pub struct MdxDictionary` (lines 21-27); `file` is the byte contents
behind `file_path`. -/
structure MdxDictionary where
  file : Bytes
  header : DictionaryHeader
  keyBlockInfos : List KeyBlockInfo
  recordBlockInfos : List RecordBlockInfo
  keyCache : LruCache RStr
  deriving DecidableEq, Repr

/-- `pub struct MddResource` (lines 29-35). -/
structure MddResource where
  file : Bytes
  header : DictionaryHeader
  keyBlockInfos : List KeyBlockInfo
  recordBlockInfos : List RecordBlockInfo
  resourceCache : LruCache Bytes
  deriving DecidableEq, Repr

/-- The key-block seek position used by every in-block search:
`self.header.data_offset` plus the sum of the compressed sizes of the
blocks before `block_idx`.  `MdxDictionary::search_in_key_block` and
`read_key_block_entries` compute it as lines 347-348 / 461-462;
`MddResource::search_in_key_block` computes the same value as
`key_blocks_start + block_offset` (lines 546-550). -/
def keyDataOffset (dataOffset : Nat) (kbis : List KeyBlockInfo) (blockIdx : Nat) : Nat :=
  dataOffset + ((kbis.take blockIdx).map (fun b => b.compressedSize)).sum

/-- `read_key_entry` (lines 382-393 and 611-622, identical in both
readers): a version-sized length prefix then the key bytes decoded with
`String::from_utf8_lossy`. -/
def readKeyEntry (c : Cursor) (version : ℚ) : Except RErr (RStr × Cursor) :=
  match (if (2 : ℚ) ≤ version then readU16 c else readU8 c) with
  | .error e => .error e
  | .ok (len, c1) =>
    match readExact c1 len with
    | .error e => .error e
    | .ok (keyBytes, c2) => .ok (utf8LossyDecode keyBytes, c2)

/-- The entry loop of `search_in_key_block` (lines 361-377, and with the
size computed before the comparison but with identical results,
lines 559-571 of the Mdd variant): per entry a key and a u64 offset are
read; on the first key equal to the target the triple
`(key, last_offset, size)` is returned where `last_offset` is the offset
read with the PREVIOUS entry (0 for the first entry) and
`size = offset - last_offset` when positive, else 0. -/
def searchEntriesLoop (version : ℚ) (target : RStr) :
    Nat → Cursor → Nat → Except RErr (Option (RStr × Nat × Nat))
  | 0, _, _ => .ok none
  | n + 1, c, lastOffset =>
    match readKeyEntry c version with
    | .error e => .error e
    | .ok (key, c1) =>
      match readU64 c1 with
      | .error e => .error e
      | .ok (offset, c2) =>
        if key == target then
          .ok (some (key, lastOffset, if lastOffset < offset then offset - lastOffset else 0))
        else searchEntriesLoop version target n c2 offset

/-- The entry loop of `read_key_block_entries` (lines 473-482): the same
reads as `searchEntriesLoop`, collecting every `(key, last_offset, size)`
triple. -/
def entriesLoop (version : ℚ) :
    Nat → Cursor → Nat → Except RErr (List (RStr × Nat × Nat))
  | 0, _, _ => .ok []
  | n + 1, c, lastOffset =>
    match readKeyEntry c version with
    | .error e => .error e
    | .ok (key, c1) =>
      match readU64 c1 with
      | .error e => .error e
      | .ok (offset, c2) =>
        match entriesLoop version n c2 offset with
        | .error e => .error e
        | .ok rest =>
          .ok ((key, lastOffset, if lastOffset < offset then offset - lastOffset else 0) :: rest)

/-- The raw `(key, offset)` pairs read by the in-block entry loops, in
order: the same reads as `searchEntriesLoop` without the running-offset
bookkeeping. -/
def keyEntryPairsLoop (version : ℚ) : Nat → Cursor → Except RErr (List (RStr × Nat))
  | 0, _ => .ok []
  | n + 1, c =>
    match readKeyEntry c version with
    | .error e => .error e
    | .ok (key, c1) =>
      match readU64 c1 with
      | .error e => .error e
      | .ok (offset, c2) =>
        match keyEntryPairsLoop version n c2 with
        | .error e => .error e
        | .ok rest => .ok ((key, offset) :: rest)

/-- Shared body of `search_in_key_block` (Mdx lines 342-380, Mdd
lines 541-574, identical up to the decompress variant `dec`):
`self.key_block_infos[block_idx]` (a panic when out of range), a read of
`compressed_size` bytes at `keyDataOffset`, decompression with header size
4 for version ≥ 2.0, then the entry loop. -/
def searchInKeyBlockCore (dec : Bytes → Option Nat → Except RErr Bytes) (file : Bytes)
    (version : ℚ) (dataOffset : Nat) (kbis : List KeyBlockInfo) (blockIdx : Nat)
    (target : RStr) : Except RErr (Option (RStr × Nat × Nat)) :=
  match kbis.get? blockIdx with
  | none => .error .panicked
  | some blockInfo =>
    match readExact ⟨file, keyDataOffset dataOffset kbis blockIdx⟩ blockInfo.compressedSize with
    | .error e => .error e
    | .ok (compressed, _) =>
      match dec compressed (if (2 : ℚ) ≤ version then some 4 else none) with
      | .error e => .error e
      | .ok decompressed =>
        searchEntriesLoop version target blockInfo.numEntries ⟨decompressed, 0⟩ 0

/-- `MdxDictionary::read_key_block_entries` (lines 457-485): the same
prelude as the search, collecting all entry triples. -/
def readKeyBlockEntriesCore (dec : Bytes → Option Nat → Except RErr Bytes) (file : Bytes)
    (version : ℚ) (dataOffset : Nat) (kbis : List KeyBlockInfo) (blockIdx : Nat) :
    Except RErr (List (RStr × Nat × Nat)) :=
  match kbis.get? blockIdx with
  | none => .error .panicked
  | some blockInfo =>
    match readExact ⟨file, keyDataOffset dataOffset kbis blockIdx⟩ blockInfo.compressedSize with
    | .error e => .error e
    | .ok (compressed, _) =>
      match dec compressed (if (2 : ℚ) ≤ version then some 4 else none) with
      | .error e => .error e
      | .ok decompressed =>
        entriesLoop version blockInfo.numEntries ⟨decompressed, 0⟩ 0

/-- The raw `(key, offset)` pairs of a key block, through the same prelude
as the in-block search. -/
def keyBlockPairsCore (dec : Bytes → Option Nat → Except RErr Bytes) (file : Bytes)
    (version : ℚ) (dataOffset : Nat) (kbis : List KeyBlockInfo) (blockIdx : Nat) :
    Except RErr (List (RStr × Nat)) :=
  match kbis.get? blockIdx with
  | none => .error .panicked
  | some blockInfo =>
    match readExact ⟨file, keyDataOffset dataOffset kbis blockIdx⟩ blockInfo.compressedSize with
    | .error e => .error e
    | .ok (compressed, _) =>
      match dec compressed (if (2 : ℚ) ≤ version then some 4 else none) with
      | .error e => .error e
      | .ok decompressed =>
        keyEntryPairsLoop version blockInfo.numEntries ⟨decompressed, 0⟩

/-- `MdxDictionary::search_in_key_block`. -/
def MdxDictionary.searchInKeyBlock (zlib : Bytes → Except RErr Bytes) (d : MdxDictionary)
    (blockIdx : Nat) (target : RStr) : Except RErr (Option (RStr × Nat × Nat)) :=
  searchInKeyBlockCore (MdxDictionary.decompress zlib) d.file d.header.version
    d.header.dataOffset d.keyBlockInfos blockIdx target

/-- `MdxDictionary::read_key_block_entries`. -/
def MdxDictionary.readKeyBlockEntries (zlib : Bytes → Except RErr Bytes) (d : MdxDictionary)
    (blockIdx : Nat) : Except RErr (List (RStr × Nat × Nat)) :=
  readKeyBlockEntriesCore (MdxDictionary.decompress zlib) d.file d.header.version
    d.header.dataOffset d.keyBlockInfos blockIdx

/-- The raw `(key, offset)` pairs of a key block of an `MdxDictionary`. -/
def MdxDictionary.keyBlockPairs (zlib : Bytes → Except RErr Bytes) (d : MdxDictionary)
    (blockIdx : Nat) : Except RErr (List (RStr × Nat)) :=
  keyBlockPairsCore (MdxDictionary.decompress zlib) d.file d.header.version
    d.header.dataOffset d.keyBlockInfos blockIdx

/-- `MddResource::search_in_key_block`. -/
def MddResource.searchInKeyBlock (zlib : Bytes → Except RErr Bytes) (d : MddResource)
    (blockIdx : Nat) (target : RStr) : Except RErr (Option (RStr × Nat × Nat)) :=
  searchInKeyBlockCore (MddResource.decompress zlib) d.file d.header.version
    d.header.dataOffset d.keyBlockInfos blockIdx target

/-- The block loop of `MdxDictionary::read_record` (lines 399-431).
`offset` is located in the running decompressed address space; the file
position of the found block is computed as
`data_offset + Σ key compressed + Σ compressed of record blocks whose
stored offset is below this block's stored offset` (the `take_while`
filter of lines 407-410).  The slice `[block_offset, block_offset+size)`
is decoded with `String::from_utf8_lossy`; when `size` overruns the block
the tail from `block_offset` is taken instead, and a `block_offset` beyond
the decompressed length panics. -/
def readRecordMdxLoop (dec : Bytes → Option Nat → Except RErr Bytes) (file : Bytes)
    (version : ℚ) (dataOffset : Nat) (kbis : List KeyBlockInfo)
    (rbis : List RecordBlockInfo) (offset size : Nat) :
    List RecordBlockInfo → Nat → Except RErr RStr
  | [], _ => .error (.recordNotFound offset)
  | bi :: rest, curOffset =>
    if curOffset ≤ offset ∧ offset < curOffset + bi.decompressedSize then
      let blockOffset := offset - curOffset
      let recordDataStart := dataOffset
        + (kbis.map (fun b => b.compressedSize)).sum
        + ((rbis.takeWhile (fun b => b.offset < bi.offset)).map
            (fun b => b.compressedSize)).sum
      match readExact ⟨file, recordDataStart⟩ bi.compressedSize with
      | .error e => .error e
      | .ok (compressed, _) =>
        match dec compressed (if (2 : ℚ) ≤ version then some 4 else none) with
        | .error e => .error e
        | .ok decompressed =>
          if blockOffset + size ≤ decompressed.length then
            .ok (utf8LossyDecode ((decompressed.drop blockOffset).take size))
          else if blockOffset ≤ decompressed.length then
            .ok (utf8LossyDecode (decompressed.drop blockOffset))
          else .error .panicked
    else
      readRecordMdxLoop dec file version dataOffset kbis rbis offset size rest
        (curOffset + bi.decompressedSize)

/-- `MdxDictionary::read_record` (lines 395-434). -/
def readRecordMdxCore (dec : Bytes → Option Nat → Except RErr Bytes) (file : Bytes)
    (version : ℚ) (dataOffset : Nat) (kbis : List KeyBlockInfo)
    (rbis : List RecordBlockInfo) (offset size : Nat) : Except RErr RStr :=
  readRecordMdxLoop dec file version dataOffset kbis rbis offset size rbis 0

/-- `MdxDictionary::read_record` on a dictionary value. -/
def MdxDictionary.readRecord (zlib : Bytes → Except RErr Bytes) (d : MdxDictionary)
    (offset size : Nat) : Except RErr RStr :=
  readRecordMdxCore (MdxDictionary.decompress zlib) d.file d.header.version
    d.header.dataOffset d.keyBlockInfos d.recordBlockInfos offset size

/-- The block loop of `MddResource::read_record` (lines 583-606): unlike
the Mdx variant it accumulates the block file offset alongside the logical
offset, reads at `record_blocks_start + block_file_offset`, and clamps the
slice end with `min`; a `block_offset` beyond the decompressed length
still panics (`start > end` in a Rust slice). -/
def readRecordMddLoop (dec : Bytes → Option Nat → Except RErr Bytes) (file : Bytes)
    (version : ℚ) (recordBlocksStart : Nat) (offset size : Nat) :
    List RecordBlockInfo → Nat → Nat → Except RErr Bytes
  | [], _, _ => .error (.recordNotFound offset)
  | bi :: rest, curOffset, blockFileOffset =>
    if curOffset ≤ offset ∧ offset < curOffset + bi.decompressedSize then
      let blockOffset := offset - curOffset
      match readExact ⟨file, recordBlocksStart + blockFileOffset⟩ bi.compressedSize with
      | .error e => .error e
      | .ok (compressed, _) =>
        match dec compressed (if (2 : ℚ) ≤ version then some 4 else none) with
        | .error e => .error e
        | .ok decompressed =>
          let endIdx := min (blockOffset + size) decompressed.length
          if blockOffset ≤ endIdx then
            .ok ((decompressed.take endIdx).drop blockOffset)
          else .error .panicked
    else
      readRecordMddLoop dec file version recordBlocksStart offset size rest
        (curOffset + bi.decompressedSize) (blockFileOffset + bi.compressedSize)

/-- `MddResource::read_record` (lines 576-609); `record_blocks_start` is
`data_offset + Σ key compressed` (lines 580-581). -/
def readRecordMddCore (dec : Bytes → Option Nat → Except RErr Bytes) (file : Bytes)
    (version : ℚ) (dataOffset : Nat) (kbis : List KeyBlockInfo)
    (rbis : List RecordBlockInfo) (offset size : Nat) : Except RErr Bytes :=
  readRecordMddLoop dec file version
    (dataOffset + (kbis.map (fun b => b.compressedSize)).sum) offset size rbis 0 0

/-- The query normalization of `MdxDictionary::lookup` (lines 313-317):
`word.trim().to_lowercase()` when `strip_key` is set, the word unchanged
otherwise.  (`key_case_sensitive` is not consulted.) -/
def MdxDictionary.targetWord (d : MdxDictionary) (word : RStr) : RStr :=
  if d.header.stripKey then rustToLower (rustTrim word) else word

/-- The block loop of `MdxDictionary::lookup` (lines 319-337): every block
whose `[first_key, last_key]` range contains the target is searched; a
search error, a search miss or a record-read error all silently fall
through to the next block (`if let Ok(...)` twice); on success the found
word and definition are cached and the entry returned. -/
def lookupLoopCore (dec : Bytes → Option Nat → Except RErr Bytes) (file : Bytes)
    (version : ℚ) (dataOffset : Nat) (kbis : List KeyBlockInfo)
    (rbis : List RecordBlockInfo) (cache : LruCache RStr) (targetWord : RStr) :
    List (Nat × KeyBlockInfo) → Option DictionaryEntry × LruCache RStr
  | [] => (none, cache)
  | (blockIdx, blockInfo) :: rest =>
    if lexLe blockInfo.firstKey targetWord && lexLe targetWord blockInfo.lastKey then
      match searchInKeyBlockCore dec file version dataOffset kbis blockIdx targetWord with
      | .ok (some (foundWord, recordOffset, recordSize)) =>
        match readRecordMdxCore dec file version dataOffset kbis rbis recordOffset recordSize with
        | .ok definition =>
          (some ⟨foundWord, definition⟩, lruPut cache foundWord definition)
        | .error _ =>
          lookupLoopCore dec file version dataOffset kbis rbis cache targetWord rest
      | _ => lookupLoopCore dec file version dataOffset kbis rbis cache targetWord rest
    else lookupLoopCore dec file version dataOffset kbis rbis cache targetWord rest

/-- `MdxDictionary::lookup` (lines 300-340).  The cache is consulted first
with the RAW query word; a hit returns the query itself as the entry's
word.  On a miss the normalized target is searched for; the result is the
entry (if any) together with the cache as left behind by the call. -/
def MdxDictionary.lookup (zlib : Bytes → Except RErr Bytes) (d : MdxDictionary)
    (word : RStr) : Option DictionaryEntry × LruCache RStr :=
  match lruGet d.keyCache word with
  | (some definition, cache1) => (some ⟨word, definition⟩, cache1)
  | (none, _) =>
    lookupLoopCore (MdxDictionary.decompress zlib) d.file d.header.version
      d.header.dataOffset d.keyBlockInfos d.recordBlockInfos d.keyCache
      (d.targetWord word) d.keyBlockInfos.enum

/-- The block loop of `MddResource::locate` (lines 526-534): every block
is searched (no range check); search errors and record-read errors fall
through to the next block; on success the bytes are cached under the
normalized name. -/
def locateLoopCore (dec : Bytes → Option Nat → Except RErr Bytes) (file : Bytes)
    (version : ℚ) (dataOffset : Nat) (kbis : List KeyBlockInfo)
    (rbis : List RecordBlockInfo) (cache : LruCache Bytes) (name : RStr) :
    List (Nat × KeyBlockInfo) → Option Bytes × LruCache Bytes
  | [] => (none, cache)
  | (blockIdx, _) :: rest =>
    match searchInKeyBlockCore dec file version dataOffset kbis blockIdx name with
    | .ok (some (_, recordOffset, recordSize)) =>
      match readRecordMddCore dec file version dataOffset kbis rbis recordOffset recordSize with
      | .ok data => (some data, lruPut cache name data)
      | .error _ => locateLoopCore dec file version dataOffset kbis rbis cache name rest
    | _ => locateLoopCore dec file version dataOffset kbis rbis cache name rest

/-- `MddResource::locate` (lines 509-537): the resource name is prefixed
with `/` unless it already starts with one; the cache is consulted with
the normalized name; then every key block is searched in order. -/
def MddResource.locate (zlib : Bytes → Except RErr Bytes) (d : MddResource)
    (resourceName : RStr) : Option Bytes × LruCache Bytes :=
  let name := if startsWithSlash resourceName then resourceName else 47 :: resourceName
  match lruGet d.resourceCache name with
  | (some data, cache1) => (some data, cache1)
  | (none, _) =>
    locateLoopCore (MddResource.decompress zlib) d.file d.header.version
      d.header.dataOffset d.keyBlockInfos d.recordBlockInfos d.resourceCache
      name d.keyBlockInfos.enum

/-- `MdxDictionary::new` (lines 73-87): read the header, read both block
info sections, construct the value with an empty cache of capacity
`CACHE_SIZE`. -/
def MdxDictionary.new (zlib : Bytes → Except RErr Bytes) (file : Bytes) :
    Except RErr MdxDictionary :=
  match readHeader file with
  | .error e => .error e
  | .ok (hdr, c) =>
    match readBlockInfos zlib c hdr.version with
    | .error e => .error e
    | .ok (kbis, rbis) =>
      .ok { file := file, header := hdr, keyBlockInfos := kbis,
            recordBlockInfos := rbis, keyCache := ⟨[], CACHE_SIZE⟩ }

/-- `MddResource::new` (lines 489-503): the same header and block-info
parsing (it calls `MdxDictionary::read_block_infos`), with an empty
resource cache. -/
def MddResource.new (zlib : Bytes → Except RErr Bytes) (file : Bytes) :
    Except RErr MddResource :=
  match readHeader file with
  | .error e => .error e
  | .ok (hdr, c) =>
    match readBlockInfos zlib c hdr.version with
    | .error e => .error e
    | .ok (kbis, rbis) =>
      .ok { file := file, header := hdr, keyBlockInfos := kbis,
            recordBlockInfos := rbis, resourceCache := ⟨[], CACHE_SIZE⟩ }

/-- Modelled from the spec (§4.4 step 4): the `(record_offset, length)`
KeySearch is claimed to return for a target matched against the
`(key, offset)` pairs of a block of the LAST key block section: the
matched entry's own logical offset, with length the next entry's logical
offset minus it, and for the last entry the total decompressed size of all
record blocks minus it. -/
def specKeySearch (entries : List (RStr × Nat)) (totalRecordDecompressed : Nat)
    (target : RStr) : Option (Nat × Nat) :=
  match entries.findIdx? (fun e => e.1 == target) with
  | none => none
  | some i =>
    let off := ((entries.get? i).map (fun e => e.2)).getD 0
    match entries.get? (i + 1) with
    | some next => some (off, next.2 - off)
    | none => some (off, totalRecordDecompressed - off)

/-- Modelled from the spec (§4.2, and the sources of claim C2): the
absolute offset where the key-block payloads begin for a version ≥ 2.0
file — immediately after the key-info section, i.e. after the key-info
header fields (8 + 8 + 8 + 5 + 8 + 8 = 45 bytes as this reader consumes
them) and the `key_info_size` bytes of key-info payload. -/
def specKeyBlocksStartV2 (dataOffset keyInfoSize : Nat) : Nat :=
  dataOffset + 45 + keyInfoSize

/-- Header text of the concrete test file: ASCII, so that the reader's
regex tokenizer (which runs on the `from_utf8_lossy` decoding) finds the
attributes. -/
def exHeaderText : RStr :=
  str ("GeneratedByEngineVersion=\x222.0\x22 KeyCaseSensitive=\x22No\x22 Encryption=\x222\x22")

/-- Key-info descriptor of block 0 of the test file: compressed size 143,
0 entries, range [zz, zz] (never matched). -/
def exDesc0 : Bytes :=
  u64be 143 ++ u64be 0 ++ u64be 0 ++
  ([0, 2] ++ str ("zz") ++ u64be 0) ++ ([0, 2] ++ str ("zz") ++ u64be 0)

/-- Key-info descriptor of block 1 of the test file: compressed size 51,
decompressed size 47, 3 entries, range [a, z]. -/
def exDesc1 : Bytes :=
  u64be 51 ++ u64be 47 ++ u64be 3 ++
  ([0, 1] ++ str ("a") ++ u64be 0) ++ ([0, 1] ++ str ("z") ++ u64be 0)

/-- Content of key block 1 of the test file: a 4-byte frame whose byte 3
(the byte this reader uses as the compression tag) is 0, then the entries
(apple, 0), (banana, 50), (cherry, 140), each a 2-byte length, the key
bytes and an 8-byte big-endian offset. -/
def exBlock1 : Bytes :=
  [0, 0, 0, 0] ++
  ([0, 5] ++ str ("apple") ++ u64be 0) ++
  ([0, 6] ++ str ("banana") ++ u64be 50) ++
  ([0, 6] ++ str ("cherry") ++ u64be 140)

/-- The key-info region of the test file (`key_info_size` = 149 bytes):
a 4-byte frame with tag byte 0, the two descriptors, and — because this
reader seeks key blocks relative to `data_offset` rather than to the end
of the key-info section — the content of key block 1 placed exactly where
block 0's compressed size (143) points: 143 bytes past `data_offset`. -/
def exKeyInfoRegion : Bytes := [0, 0, 0, 0] ++ exDesc0 ++ exDesc1 ++ exBlock1

/-- A complete version-2.0 .mdx file this reader opens successfully and
on which `lookup` of "apple", "banana" and "cherry" exercises key block 1.
Layout: 4-byte header length (67), the ASCII header text, a 4-byte
checksum, then from `data_offset` = 75: `num_key_blocks` = 2,
`num_entries` = 3, a discarded u64, 5 zero bytes, `key_info_size` = 149,
`key_blocks_size`, the key-info region, and the record section:
`num_record_blocks` = 1, entry count, `record_info_size` = 16, total
size, then one record descriptor (compressed 12, decompressed 230). -/
def exFile : Bytes :=
  [0, 0, 0, 67] ++ exHeaderText ++ [0, 0, 0, 0] ++
  u64be 2 ++ u64be 3 ++ u64be 0 ++ [0, 0, 0, 0, 0] ++ u64be 149 ++ u64be 0 ++
  exKeyInfoRegion ++
  u64be 1 ++ u64be 3 ++ u64be 16 ++ u64be 0 ++
  u64be 12 ++ u64be 230

/-- The header `MdxDictionary::new` parses out of `exFile`. -/
def exHeader : DictionaryHeader :=
  { version := 2, engineVersion := str ("2.0"), format := str ("Html"),
    keyCaseSensitive := false, stripKey := false, encryption := str ("2"),
    encoding := str ("UTF-8"), creationDate := [], compact := false,
    left2right := false, dataOffset := 75, title := str ("Dictionary"),
    description := [] }

/-- The dictionary value `MdxDictionary::new` builds from `exFile`. -/
def exDict : MdxDictionary :=
  { file := exFile, header := exHeader,
    keyBlockInfos :=
      [{ compressedSize := 143, decompressedSize := 0, numEntries := 0,
         firstKey := str ("zz"), lastKey := str ("zz"), offset := 0 },
       { compressedSize := 51, decompressedSize := 47, numEntries := 3,
         firstKey := str ("a"), lastKey := str ("z"), offset := 143 }],
    recordBlockInfos := [{ compressedSize := 12, decompressedSize := 230, offset := 0 }],
    keyCache := ⟨[], 100⟩ }

/-- The entry triples the reader itself collects from key block 1 of
`exFile`. -/
def exEntryTriples : List (RStr × Nat × Nat) :=
  [(str ("apple"), 0, 0), (str ("banana"), 0, 50), (str ("cherry"), 50, 90)]

/-- The raw `(key, offset)` pairs of key block 1 of `exFile`. -/
def exEntryPairs : List (RStr × Nat) :=
  [(str ("apple"), 0), (str ("banana"), 50), (str ("cherry"), 140)]

/-- The key-block descriptors of `exFile` before the offset pass. -/
def exInfos0 : List KeyBlockInfo :=
  [{ compressedSize := 143, decompressedSize := 0, numEntries := 0,
     firstKey := str ("zz"), lastKey := str ("zz"), offset := 0 },
   { compressedSize := 51, decompressedSize := 47, numEntries := 3,
     firstKey := str ("a"), lastKey := str ("z"), offset := 0 }]

/-- A dictionary state whose only key block claims 1000 compressed bytes
of an empty file: every in-block search fails with an I/O error. -/
def exErrDict : MdxDictionary :=
  { file := [], header := { exHeader with dataOffset := 0 },
    keyBlockInfos :=
      [{ compressedSize := 1000, decompressedSize := 10, numEntries := 1,
         firstKey := str ("a"), lastKey := str ("z"), offset := 0 }],
    recordBlockInfos := [], keyCache := ⟨[], 100⟩ }

/-- A dictionary state whose cache already holds the raw query "APPLE"
(while `strip_key` is set, so a miss would have normalized the query). -/
def exCachedDict : MdxDictionary :=
  { file := [], header := { exHeader with stripKey := true },
    keyBlockInfos := [], recordBlockInfos := [],
    keyCache := ⟨[(str ("APPLE"), str ("cached apple definition"))], 100⟩ }

/-- The cache `lruGet` leaves behind when `exCachedDict` is hit with
"APPLE". -/
def exCachedDictCache : LruCache RStr :=
  ⟨[(str ("APPLE"), str ("cached apple definition"))], 100⟩

/-- Key block content of the concrete .mdd resource state: entries
(/cat, 0) and (/dog, 4), behind a 4-byte frame with tag byte 0. -/
def exMddBlock : Bytes :=
  [0, 0, 0, 0] ++
  ([0, 4] ++ str ("/cat") ++ u64be 0) ++
  ([0, 4] ++ str ("/dog") ++ u64be 4)

/-- A concrete resource archive state: `data_offset` 0, one key block of
32 bytes (the block content is the start of the file), then one record
block (compressed 12, decompressed 10) whose framed content decompresses
to "meowpurr". -/
def exMdd : MddResource :=
  { file := exMddBlock ++ [0, 0, 0, 0] ++ str ("meowpurr"),
    header := { exHeader with dataOffset := 0 },
    keyBlockInfos :=
      [{ compressedSize := 32, decompressedSize := 28, numEntries := 2,
         firstKey := str ("/cat"), lastKey := str ("/dog"), offset := 0 }],
    recordBlockInfos := [{ compressedSize := 12, decompressedSize := 10, offset := 0 }],
    resourceCache := ⟨[], 100⟩ }

/-- The UTF-16LE encoding of the header text `Encryption="2"` (ASCII code
units interleaved with zero bytes). -/
def exUtf16Body : Bytes :=
  (str ("Encryption=\x222\x22")).flatMap (fun c => [c, 0])

/-- A file whose header bytes are valid UTF-16LE text declaring
`Encryption="2"`: 4-byte length (28), the UTF-16LE body, a 4-byte
checksum. -/
def exUtf16File : Bytes := [0, 0, 0, 28] ++ exUtf16Body ++ [0, 0, 0, 0]

/-- A framed block for the checksum claims: frame bytes `[0,0,0,0]` (tag
0), the four bytes `[9,9,9,9]` where the spec stores the Adler-32 checksum
of the payload, then the payload "hi". -/
def exFrame : Bytes := [0, 0, 0, 0] ++ [9, 9, 9, 9] ++ str ("hi")
set_option maxRecDepth 10000

/-- Relation between the two in-block entry loops of the source: whenever
collecting all entry triples succeeds, the search loop returns the first
collected triple whose key equals the target. -/
theorem searchLoop_eq_find (version : ℚ) (target : RStr) :
    ∀ (n : Nat) (c : Cursor) (lastOffset : Nat) (es : List (RStr × Nat × Nat)),
      entriesLoop version n c lastOffset = .ok es →
      searchEntriesLoop version target n c lastOffset =
        .ok (es.find? (fun e => e.1 == target)) := by
  intro n
  induction n with
  | zero =>
    intro c lastOffset es h
    simp only [entriesLoop] at h
    injection h with h
    subst h
    rfl
  | succ n ih =>
    intro c lastOffset es h
    simp only [entriesLoop] at h
    simp only [searchEntriesLoop]
    revert h
    cases hk : readKeyEntry c version with
    | error e => intro h; exact absurd h (by simp)
    | ok kv =>
      obtain ⟨key, c1⟩ := kv
      dsimp only
      cases hu : readU64 c1 with
      | error e => intro h; exact absurd h (by simp)
      | ok oc =>
        obtain ⟨offset, c2⟩ := oc
        dsimp only
        cases he : entriesLoop version n c2 offset with
        | error e => intro h; exact absurd h (by simp)
        | ok rest =>
          dsimp only
          intro h
          injection h with h
          subst h
          by_cases hkey : (key == target) = true
          · rw [if_pos hkey, List.find?_cons_of_pos _ (by exact hkey)]
          · rw [if_neg hkey, List.find?_cons_of_neg _ (by simp_all)]
            exact ih c2 offset rest he

/-- C1 (amended): when `read_key_block_entries` parses a key block into the
triples `es`, `search_in_key_block` returns exactly the first triple of
`es` whose key equals the target — and that triple carries the offset read
with the PREVIOUS entry (0 for the first entry) and the size
`this offset - previous offset` when positive, else 0.  The decompressed
sizes of the record blocks are never consulted, contrary to the claim. -/
theorem searchInKeyBlock_eq_find_entry (zlib : Bytes → Except RErr Bytes)
    (d : MdxDictionary) (blockIdx : Nat) (target : RStr) (es : List (RStr × Nat × Nat))
    (h : d.readKeyBlockEntries zlib blockIdx = .ok es) :
    d.searchInKeyBlock zlib blockIdx target = .ok (es.find? (fun e => e.1 == target)) := by
  unfold MdxDictionary.readKeyBlockEntries readKeyBlockEntriesCore at h
  unfold MdxDictionary.searchInKeyBlock searchInKeyBlockCore
  revert h
  cases hg : d.keyBlockInfos.get? blockIdx with
  | none => intro h; exact absurd h (by simp)
  | some info =>
    dsimp only
    cases hr : readExact ⟨d.file, keyDataOffset d.header.dataOffset d.keyBlockInfos blockIdx⟩
        info.compressedSize with
    | error e => intro h; exact absurd h (by simp)
    | ok pr =>
      obtain ⟨compressed, cr⟩ := pr
      dsimp only
      cases hd : MdxDictionary.decompress zlib compressed
          (if (2 : ℚ) ≤ d.header.version then some 4 else none) with
      | error e => intro h; exact absurd h (by simp)
      | ok dcmp =>
        dsimp only
        intro h
        exact searchLoop_eq_find _ _ _ _ _ _ h

/-- C1 witness: the amended theorem applied to key block 1 of the concrete
file, target "banana", hypotheses discharged by evaluation. -/
theorem searchInKeyBlock_eq_find_entry_witness :
    exDict.readKeyBlockEntries noZlib 1 = .ok exEntryTriples ∧
    exDict.searchInKeyBlock noZlib 1 (str ("banana")) =
      .ok (exEntryTriples.find? (fun e => e.1 == str ("banana"))) :=
  ⟨by decide, searchInKeyBlock_eq_find_entry noZlib exDict 1 (str ("banana"))
      exEntryTriples (by decide)⟩

/-- C1 counterexample: in key block 1 of `exFile` the `(key, offset)` pairs
are (apple, 0), (banana, 50), (cherry, 140) and the record blocks
decompress to 230 bytes in total; the claim demands that the search for
"banana" return its own logical offset 50 with length 140 - 50 = 90, but
the code returns offset 0 (the offset read with the previous entry) and
length 50. -/
theorem searchInKeyBlock_offset_length_cex :
    exDict.searchInKeyBlock noZlib 1 (str ("banana")) =
      .ok (some (str ("banana"), 0, 50)) ∧
    exDict.keyBlockPairs noZlib 1 = .ok exEntryPairs ∧
    specKeySearch exEntryPairs
      ((exDict.recordBlockInfos.map (fun b => b.decompressedSize)).sum) (str ("banana")) =
      some (50, 90) ∧
    ((0 : Nat), (50 : Nat)) ≠ ((50 : Nat), (90 : Nat)) := by
  refine ⟨by decide, by decide, by decide, by decide⟩

/-- The offset pass keeps the number of descriptors. -/
theorem assignOffsets_length (l : List KeyBlockInfo) (s : Nat) :
    (assignOffsets l s).length = l.length := by
  induction l generalizing s with
  | nil => rfl
  | cons hd tl ih => simp [assignOffsets, ih]

/-- The offset pass keeps every compressed size. -/
theorem assignOffsets_map_compressedSize (l : List KeyBlockInfo) (s : Nat) :
    (assignOffsets l s).map (fun b => b.compressedSize) =
      l.map (fun b => b.compressedSize) := by
  induction l generalizing s with
  | nil => rfl
  | cons hd tl ih => simp [assignOffsets, ih]

/-- The offset the source assigns to descriptor `i` is the start value plus
the prefix sum of the compressed sizes of the descriptors before `i`. -/
theorem assignOffsets_get_offset (l : List KeyBlockInfo) :
    ∀ (s i : Nat) (hi : i < (assignOffsets l s).length),
      ((assignOffsets l s).get ⟨i, hi⟩).offset =
        s + ((l.take i).map (fun b => b.compressedSize)).sum := by
  induction l with
  | nil => intro s i hi; simp [assignOffsets] at hi
  | cons hd tl ih =>
    intro s i hi
    cases i with
    | zero => simp [assignOffsets]
    | succ j =>
      simp only [assignOffsets, List.get_cons_succ]
      rw [ih]
      simp [List.take_succ_cons]
      omega

/-- C2 (amended): for descriptor lists produced by
`parse_key_block_info` (offsets prefix-summed starting at 0), every
in-block search reads key block `i` at `data_offset` plus the stored
`offset` of block `i` — that is, the prefix-summing starts at
`data_offset`, the START of the key-info section, not at the point
after the key-info header fields and payload where the key-block
payloads begin. -/
theorem keyDataOffset_eq_stored_offset (dataOffset : Nat) (infos : List KeyBlockInfo)
    (i : Nat) (hi : i < (assignOffsets infos 0).length) :
    keyDataOffset dataOffset (assignOffsets infos 0) i =
      dataOffset + ((assignOffsets infos 0).get ⟨i, hi⟩).offset := by
  rw [assignOffsets_get_offset]
  unfold keyDataOffset
  rw [List.map_take, assignOffsets_map_compressedSize, ← List.map_take]
  omega

/-- C2 witness: the amended theorem at block 1 of the concrete descriptor
list with `data_offset` 75. -/
theorem keyDataOffset_eq_stored_offset_witness :
    1 < (assignOffsets exInfos0 0).length ∧
    keyDataOffset 75 (assignOffsets exInfos0 0) 1 =
      75 + ((assignOffsets exInfos0 0).get ⟨1, by decide⟩).offset :=
  ⟨by decide, keyDataOffset_eq_stored_offset 75 exInfos0 1 (by decide)⟩

/-- C2 counterexample: on `exFile` (`data_offset` 75, `key_info_size` 149,
block 0 compressed size 143) the reader reads key block 1 at
75 + 143 = 218, while the offset the claim prescribes — key-block payload
start (after the 45 header-field bytes and the 149-byte key-info payload)
plus the same prefix sum — is 75 + 45 + 149 + 143 = 412. -/
theorem keyDataOffset_base_cex :
    MdxDictionary.new noZlib exFile = .ok exDict ∧
    keyDataOffset exDict.header.dataOffset exDict.keyBlockInfos 1 = 218 ∧
    specKeyBlocksStartV2 exDict.header.dataOffset 149 +
      ((exDict.keyBlockInfos.take 1).map (fun b => b.compressedSize)).sum = 412 ∧
    (218 : Nat) ≠ 412 := by
  refine ⟨by decide, by decide, by decide, by decide⟩

/-- C3 (amended): no checksum is computed or compared: for any framed
input whose byte 3 (the byte this reader takes as the compression tag) is
0, both decompressors return `Ok` of everything after the first 4 bytes —
whatever the 4 bytes standing where the spec stores the Adler-32 checksum,
which moreover end up inside the returned output rather than being
stripped. -/
theorem decompress_ignores_checksum (zlib : Bytes → Except RErr Bytes)
    (a b c : Nat) (cs payload : Bytes) (hcs : cs.length = 4) :
    MdxDictionary.decompress zlib ([a, b, c, 0] ++ cs ++ payload) (some 4) =
      .ok (cs ++ payload) ∧
    MddResource.decompress zlib ([a, b, c, 0] ++ cs ++ payload) (some 4) =
      .ok (cs ++ payload) := by
  rcases cs with _ | ⟨c0, _ | ⟨c1, _ | ⟨c2, _ | ⟨c3, _ | rest⟩⟩⟩⟩ <;> simp_all
  constructor
  · simp [MdxDictionary.decompress, mdxSelectAndSwitch, decompressTag]
  · simp [MddResource.decompress, decompressTag]

/-- C3 witness: the amended theorem at a concrete frame with checksum
bytes [9, 9, 9, 9] and payload "hi". -/
theorem decompress_ignores_checksum_witness :
    ([9, 9, 9, 9] : Bytes).length = 4 ∧
    (MdxDictionary.decompress noZlib ([0, 0, 0, 0] ++ [9, 9, 9, 9] ++ str ("hi")) (some 4) =
      .ok ([9, 9, 9, 9] ++ str ("hi")) ∧
     MddResource.decompress noZlib ([0, 0, 0, 0] ++ [9, 9, 9, 9] ++ str ("hi")) (some 4) =
      .ok ([9, 9, 9, 9] ++ str ("hi"))) :=
  ⟨by decide, decompress_ignores_checksum noZlib 0 0 0 [9, 9, 9, 9] (str ("hi")) (by decide)⟩

/-- C3 counterexample: a framed block whose stored 4-byte checksum
(value 151587081) agrees neither with the Adler-32 of the returned output
(31523062), nor with the Adler-32 of the payload proper (20644050), is
still decompressed successfully by both readers — no CorruptBlock error is
possible for a checksum mismatch. -/
theorem decompress_checksum_cex :
    MdxDictionary.decompress noZlib exFrame (some 4) = .ok ([9, 9, 9, 9] ++ str ("hi")) ∧
    MddResource.decompress noZlib exFrame (some 4) = .ok ([9, 9, 9, 9] ++ str ("hi")) ∧
    beVal ((exFrame.drop 4).take 4) = 151587081 ∧
    adler32 ([9, 9, 9, 9] ++ str ("hi")) = 31523062 ∧
    adler32 (str ("hi")) = 20644050 ∧
    (31523062 : Nat) ≠ 151587081 ∧ (20644050 : Nat) ≠ 151587081 := by
  refine ⟨by decide, by decide, by decide, by decide, by decide, by decide, by decide⟩

/-- C4 (amended): the parsed `KeyCaseSensitive` flag has no effect on
lookup: the outcome is identical for any two values of the flag.
Lowercasing happens only through `strip_key`, and then only to the query
word, never to the stored keys. -/
theorem lookup_ignores_keyCaseSensitive (zlib : Bytes → Except RErr Bytes)
    (d : MdxDictionary) (b1 b2 : Bool) (w : RStr) :
    ({ d with header := { d.header with keyCaseSensitive := b1 } } : MdxDictionary).lookup
        zlib w =
      ({ d with header := { d.header with keyCaseSensitive := b2 } } : MdxDictionary).lookup
        zlib w := rfl

/-- C4 counterexample: on the concrete file, whose header says
`KeyCaseSensitive="No"`, `lookup("apple")` succeeds yet `lookup("APPLE")`
returns `none`: neither the query nor the stored keys are folded, so the
scenario-2 behaviour the claim describes does not hold. -/
theorem lookup_case_fold_cex :
    MdxDictionary.new noZlib exFile = .ok exDict ∧
    exDict.header.keyCaseSensitive = false ∧
    (exDict.lookup noZlib (str ("apple"))).1 =
      some { word := str ("apple"), definition := [] } ∧
    (exDict.lookup noZlib (str ("APPLE"))).1 = none := by
  refine ⟨by decide, by decide, by decide, by decide⟩


/-- C5 (amended): `read_header` decodes the `L` header bytes with
`String::from_utf8_lossy` — i.e. as UTF-8 with lossy replacement, not as
UTF-16LE — before tokenizing the attribute mapping. -/
theorem readHeader_decodes_utf8 (body rest : Bytes) (h : body.length < 2 ^ 32) :
    readHeader (u32be body.length ++ body ++ rest) =
      .ok ({ parseHeaderAttrs (utf8LossyDecode body) with dataOffset := body.length + 4 + 4 },
           ⟨u32be body.length ++ body ++ rest, body.length + 4 + 4⟩) := by
  have hlen32 : (u32be body.length).length = 4 := by simp [u32be]
  have hlen : (u32be body.length ++ body ++ rest).length =
      4 + body.length + rest.length := by
    simp [u32be]
    omega
  have hbe : beVal (u32be body.length) = body.length := by
    unfold beVal u32be
    simp [List.foldl]
    omega
  have htake4 : ((u32be body.length ++ body ++ rest).drop 0).take 4 = u32be body.length := by
    rw [List.drop_zero, List.append_assoc]
    rw [show (4 : Nat) = (u32be body.length).length from hlen32.symm]
    exact List.take_left _ _
  have hdrop4 : (u32be body.length ++ body ++ rest).drop 4 = body ++ rest := by
    rw [List.append_assoc]
    rw [show (4 : Nat) = (u32be body.length).length from hlen32.symm]
    exact List.drop_left _ _
  have h1 : readU32 ⟨u32be body.length ++ body ++ rest, 0⟩ =
      .ok (body.length, ⟨u32be body.length ++ body ++ rest, 4⟩) := by
    unfold readU32
    rw [readExact, if_pos (by simp only []; omega)]
    dsimp only
    rw [htake4, hbe]
  have h2 : readExact ⟨u32be body.length ++ body ++ rest, 4⟩ body.length =
      .ok (body, ⟨u32be body.length ++ body ++ rest, 4 + body.length⟩) := by
    rw [readExact, if_pos (by simp only []; omega)]
    rw [hdrop4, List.take_left]
  unfold readHeader
  rw [h1]
  dsimp only
  rw [h2]

/-- C5 witness: the amended theorem at a concrete ASCII header body. -/
theorem readHeader_decodes_utf8_witness :
    (str ("Title=\x22T\x22")).length < 2 ^ 32 ∧
    readHeader (u32be (str ("Title=\x22T\x22")).length ++ str ("Title=\x22T\x22") ++ [0, 0, 0, 0]) =
      .ok ({ parseHeaderAttrs (utf8LossyDecode (str ("Title=\x22T\x22"))) with
              dataOffset := (str ("Title=\x22T\x22")).length + 4 + 4 },
           ⟨u32be (str ("Title=\x22T\x22")).length ++ str ("Title=\x22T\x22") ++ [0, 0, 0, 0],
            (str ("Title=\x22T\x22")).length + 4 + 4⟩) :=
  ⟨by decide, readHeader_decodes_utf8 (str ("Title=\x22T\x22")) [0, 0, 0, 0] (by decide)⟩

/-- C5 counterexample: header bytes that are valid UTF-16LE for the text
`Encryption="2"` parse to the default header (empty `encryption` field)
because the reader decodes them as UTF-8, whereas decoding them as
UTF-16LE per the claim and then tokenizing yields encryption "2". -/
theorem readHeader_utf16_cex :
    utf16leDecode exUtf16Body = some (str ("Encryption=\x222\x22")) ∧
    (parseHeaderAttrs (str ("Encryption=\x222\x22"))).encryption = str ("2") ∧
    (readHeader exUtf16File).toOption.map (fun p => p.1.encryption) = some [] ∧
    ([] : RStr) ≠ str ("2") := by
  refine ⟨by decide, by decide, by decide, by decide⟩

/-- C6 (amended): the parsed `Encryption` attribute is stored but never
consulted: lookup behaves identically for any two encryption values, and
no UnsupportedEncryption error exists anywhere in the reader. -/
theorem lookup_ignores_encryption (zlib : Bytes → Except RErr Bytes)
    (d : MdxDictionary) (e1 e2 : RStr) (w : RStr) :
    ({ d with header := { d.header with encryption := e1 } } : MdxDictionary).lookup zlib w =
      ({ d with header := { d.header with encryption := e2 } } : MdxDictionary).lookup zlib w :=
  rfl

/-- C6 counterexample: `exFile` declares `Encryption="2"` (non-empty,
non-trivial, the record-encryption indicator); `MdxDictionary::new` opens
it successfully (the handle IS constructed) and `lookup("apple")` silently
succeeds, contrary to the claim that an UnsupportedEncryption error
surfaces at open time or on the first lookup. -/
theorem encryption_unchecked_cex :
    MdxDictionary.new noZlib exFile = .ok exDict ∧
    exDict.header.encryption = str ("2") ∧
    str ("2") ≠ [] ∧
    (exDict.lookup noZlib (str ("apple"))).1 =
      some { word := str ("apple"), definition := [] } := by
  refine ⟨by decide, by decide, by decide, by decide⟩

/-- C7 (amended): an LZO compression tag (0x01) makes both decompressors
return `Ok` with EMPTY output — silently, with no error of any kind (there
is no LZO backend); only a tag other than 0, 1 and 2 produces an error. -/
theorem lzo_returns_empty (zlib : Bytes → Except RErr Bytes) (a b c : Nat)
    (rest : Bytes) (hr : rest ≠ []) :
    MdxDictionary.decompress zlib ([a, b, c, 1] ++ rest) (some 4) = .ok [] ∧
    MddResource.decompress zlib ([a, b, c, 1] ++ rest) (some 4) = .ok [] ∧
    MdxDictionary.decompress zlib (1 :: rest) none = .ok [] := by
  have hpos : 0 < rest.length := List.length_pos.mpr hr
  refine ⟨?_, ?_, ?_⟩
  · simp [MdxDictionary.decompress, mdxSelectAndSwitch, decompressTag]
  · simp [MddResource.decompress, decompressTag]
    exact fun hrest => absurd hrest hr
  · simp [MdxDictionary.decompress, mdxSelectAndSwitch, decompressTag]

/-- C7 witness: the amended theorem at a concrete framed and raw block. -/
theorem lzo_returns_empty_witness :
    ([42] : Bytes) ≠ [] ∧
    (MdxDictionary.decompress noZlib ([0, 0, 0, 1] ++ [42]) (some 4) = .ok [] ∧
     MddResource.decompress noZlib ([0, 0, 0, 1] ++ [42]) (some 4) = .ok [] ∧
     MdxDictionary.decompress noZlib (1 :: [42]) none = .ok []) :=
  ⟨by decide, lzo_returns_empty noZlib 0 0 0 [42] (by decide)⟩

/-- C7 counterexample: decompressing a framed block whose tag byte is 1
returns `Ok []` (success with empty data) in both readers, not an
UnsupportedCompression error. -/
theorem lzo_empty_cex :
    MdxDictionary.decompress noZlib [0, 0, 0, 1, 200, 200] (some 4) = .ok [] ∧
    MddResource.decompress noZlib [0, 0, 0, 1, 200, 200] (some 4) = .ok [] ∧
    (MdxDictionary.decompress noZlib [0, 0, 0, 1, 200, 200] (some 4)).isOk = true ∧
    (MddResource.decompress noZlib [0, 0, 0, 1, 200, 200] (some 4)).isOk = true := by
  refine ⟨by decide, by decide, by decide, by decide⟩

/-- When every in-block search of the block loop fails with an error, the
loop of `lookup` falls through every block and returns `(none, cache)`. -/
theorem lookupLoopCore_all_err (dec : Bytes → Option Nat → Except RErr Bytes) (file : Bytes)
    (version : ℚ) (dataOffset : Nat) (kbis : List KeyBlockInfo)
    (rbis : List RecordBlockInfo) (cache : LruCache RStr) (tw : RStr) :
    ∀ l : List (Nat × KeyBlockInfo),
      (∀ p ∈ l, (searchInKeyBlockCore dec file version dataOffset kbis p.1 tw).isOk = false) →
      lookupLoopCore dec file version dataOffset kbis rbis cache tw l = (none, cache) := by
  intro l
  induction l with
  | nil => intro _; rfl
  | cons p rest ih =>
    intro hall
    obtain ⟨i, info⟩ := p
    have hp := hall (i, info) (List.mem_cons_self _ _)
    have htail := fun q hq => hall q (List.mem_cons_of_mem _ hq)
    simp only [lookupLoopCore]
    by_cases hc : (lexLe info.firstKey tw && lexLe tw info.lastKey) = true
    · rw [if_pos hc]
      revert hp
      cases hs : searchInKeyBlockCore dec file version dataOffset kbis i tw with
      | error e => intro _; exact ih htail
      | ok v => intro hp; simp [Except.isOk, Except.toBool] at hp
    · rw [if_neg hc]
      exact ih htail

/-- C8 (amended): `lookup` returns a plain `Option` with no error channel:
when the cache misses and every in-block search fails with an error (I/O
failure, corrupt block, …), `lookup` returns `(none, unchanged cache)` —
indistinguishable from the not-found answer, the errors silently
swallowed by the `if let Ok(…)` patterns of the block loop. -/
theorem lookup_swallows_errors (zlib : Bytes → Except RErr Bytes) (d : MdxDictionary)
    (w : RStr)
    (hc : (lruGet d.keyCache w).1 = none)
    (he : ∀ p ∈ d.keyBlockInfos.enum,
      (d.searchInKeyBlock zlib p.1 (d.targetWord w)).isOk = false) :
    d.lookup zlib w = (none, d.keyCache) := by
  unfold MdxDictionary.lookup
  revert hc
  cases hlg : lruGet d.keyCache w with
  | mk o c2 =>
    intro hc
    simp only at hc
    subst hc
    exact lookupLoopCore_all_err _ _ _ _ _ _ _ _ _ he

/-- C8 witness: the amended theorem on a dictionary whose single block
search fails with an I/O error. -/
theorem lookup_swallows_errors_witness :
    ((lruGet exErrDict.keyCache (str ("apple"))).1 = none ∧
     ∀ p ∈ exErrDict.keyBlockInfos.enum,
       (exErrDict.searchInKeyBlock noZlib p.1 (exErrDict.targetWord (str ("apple")))).isOk
         = false) ∧
    exErrDict.lookup noZlib (str ("apple")) = (none, exErrDict.keyCache) :=
  ⟨⟨by decide, by decide⟩,
   lookup_swallows_errors noZlib exErrDict (str ("apple")) (by decide) (by decide)⟩

/-- C8 counterexample: on `exErrDict` the only in-block search fails with
an I/O error, yet `lookup` returns exactly `(none, cache)` — the same
answer as for the absent word "durian"; the caller cannot distinguish the
error from a not-found. -/
theorem lookup_error_to_none_cex :
    exErrDict.searchInKeyBlock noZlib 0 (str ("apple")) = .error .ioErr ∧
    exErrDict.lookup noZlib (str ("apple")) = (none, exErrDict.keyCache) ∧
    (exErrDict.lookup noZlib (str ("durian"))).1 = none := by
  refine ⟨by decide, by decide, by decide⟩

/-- C9: for every resource name that does not begin with a slash,
`locate(name)` equals `locate("/" ++ name)` on the same reader state: the
name is normalized to a leading slash before the cache and the block
search ever see it. -/
theorem locate_slash_optional (zlib : Bytes → Except RErr Bytes) (d : MddResource)
    (n : RStr) (h : startsWithSlash n = false) :
    d.locate zlib n = d.locate zlib (47 :: n) := by
  have h2 : startsWithSlash (47 :: n) = true := by simp [startsWithSlash]
  unfold MddResource.locate
  rw [h, h2]
  simp

/-- C9 witness: the theorem at the concrete resource archive and the name
"dog", whose record bytes "meow" are returned under both spellings. -/
theorem locate_slash_optional_witness :
    startsWithSlash (str ("dog")) = false ∧
    exMdd.locate noZlib (str ("dog")) = exMdd.locate noZlib (47 :: str ("dog")) :=
  ⟨by decide, locate_slash_optional noZlib exMdd (str ("dog")) (by decide)⟩

/-- C10: when the raw query word is currently a key of the LRU cache,
`lookup` returns the entry whose `word` field is the query exactly as
supplied (and the cached definition), with the cache promoted: no
normalization or canonicalization happens on the cache-hit path. -/
theorem lookup_cache_hit_verbatim (zlib : Bytes → Except RErr Bytes) (d : MdxDictionary)
    (w defn : RStr) (c2 : LruCache RStr)
    (h : lruGet d.keyCache w = (some defn, c2)) :
    d.lookup zlib w = (some { word := w, definition := defn }, c2) := by
  unfold MdxDictionary.lookup
  rw [h]

/-- C10 witness: the theorem on a state whose cache holds the raw key
"APPLE" while `strip_key` is set — a cache miss would have searched for
the normalized "apple", so the canonical word can differ between a miss
and a later hit. -/
theorem lookup_cache_hit_verbatim_witness :
    lruGet exCachedDict.keyCache (str ("APPLE")) =
      (some (str ("cached apple definition")), exCachedDictCache) ∧
    exCachedDict.lookup noZlib (str ("APPLE")) =
      (some { word := str ("APPLE"), definition := str ("cached apple definition") },
       exCachedDictCache) ∧
    exCachedDict.targetWord (str ("APPLE")) = str ("apple") :=
  ⟨by decide,
   lookup_cache_hit_verbatim noZlib exCachedDict (str ("APPLE"))
     (str ("cached apple definition")) exCachedDictCache (by decide),
   by decide⟩
